import Mathlib

/-!
Shallow embedding of the chunk-reader and slice-pool core of
azure-storage-azcopy (package `common`):

* `src/common/fileChunkReader.go` — `simpleFileChunkReader` with
  `Prefetch`, `Seek`, `Read`, `discardBuffer`, `Close`, and the
  constructor `NewSimpleFileChunkReader`.
* `src/common/multiSizeSlicePool.go` — `simpleSlicePool` (`Get`/`Put`),
  `getSlotInfo`, `NewMultiSizeSlicePool`, `RentSlice`, `ReturnSlice`.

Modelling choices:
* Go `int64` fields (`offsetInFile`, `length`, `positionInChunk`, the
  shared counter) are `Int`; the values exercised by these components
  stay far from the 64-bit boundary, so wrap-around is not modelled.
* The shared `prefetchedByteTracker` (`*SharedCounter`, which only
  supports atomic `Add`) is modelled by its current value, threaded
  through the reader state.
* `file.ReadAt(buffer, offset)` is an external effect; its outcome is an
  explicit input `ReadAtOutcome`: either a failure (with whatever prefix
  of bytes the OS wrote before failing, and the error text) or a success
  carrying the bytes read.  Go's `ReadAt` never reports more bytes than
  the buffer holds, so the byte count is clamped to the buffer length.
* Go panics (construction with `length <= 0`, `getSlotInfo 0`, slice
  index out of range, reslicing beyond capacity) are `Option.none`.
* A Go byte slice is modelled by its length and capacity
  (`ByteSlice`); the pooled slices' contents are irrelevant to the pool
  logic (the pool never reads or zeroes them).
-/

namespace AzCopy

/-- State of one `simpleFileChunkReader` (fileChunkReader.go, lines 41–62).
The `file *os.File` handle is not part of the state: the reader only ever
uses it through `ReadAt`, which is modelled by `ReadAtOutcome` inputs. -/
structure ChunkReaderState where
  offsetInFile : Int
  length : Int
  positionInChunk : Int
  buffer : Option (List Nat)
  prefetchedByteTracker : Int
deriving Repr, DecidableEq

/-- Outcome of one `file.ReadAt(buffer, offsetInFile)` call: `failure`
carries the prefix the OS wrote before the error plus the error text;
`success` carries the bytes read (with a nil error). -/
inductive ReadAtOutcome where
  | failure (partialData : List Nat) (msg : String)
  | success (data : List Nat)
deriving Repr, DecidableEq

/-- The contents of a freshly `make`-allocated `length`-byte buffer after
`ReadAt` wrote `data` into its front: the written prefix followed by the
zero bytes `make` put in the rest.  The result always has length
`bufLen`. -/
def fillBuffer (bufLen : Nat) (data : List Nat) : List Nat :=
  data.take bufLen ++ List.replicate (bufLen - data.length) 0

/-- `simpleFileChunkReader.Prefetch` (fileChunkReader.go, lines 81–110).
Returns the Go `error` (as `Except String Unit`) and the updated state.
Mirrors the source exactly: the buffer is allocated *before* the read and
is kept — not discarded — on both error paths; the tracker is bumped by
`bytesRead` only on the fully successful path. -/
def Prefetch (cr : ChunkReaderState) (oc : ReadAtOutcome) :
    Except String Unit × ChunkReaderState :=
  match cr.buffer with
  | some _ => (Except.ok (), cr)
  | none =>
    match oc with
    | ReadAtOutcome.failure partialData msg =>
        (Except.error msg,
         { cr with buffer := some (fillBuffer cr.length.toNat partialData) })
    | ReadAtOutcome.success data =>
        let bytesRead := min data.length cr.length.toNat
        let cr2 := { cr with buffer := some (fillBuffer cr.length.toNat data) }
        if (bytesRead : Int) ≠ cr.length then
          (Except.error "bytes read not equal to expected length. Chunk reader must be constructed so that it won't read past end of file", cr2)
        else
          (Except.ok (),
           { cr2 with prefetchedByteTracker := cr2.prefetchedByteTracker + (bytesRead : Int) })

/-- `simpleFileChunkReader.discardBuffer` (fileChunkReader.go, lines 171–177). -/
def discardBuffer (cr : ChunkReaderState) : ChunkReaderState :=
  match cr.buffer with
  | none => cr
  | some _ =>
    { cr with buffer := none,
              prefetchedByteTracker := cr.prefetchedByteTracker - cr.length }

/-- `simpleFileChunkReader.Close` (fileChunkReader.go, lines 179–182). -/
def Close (cr : ChunkReaderState) : Except String Unit × ChunkReaderState :=
  (Except.ok (), discardBuffer cr)

/-- The `newPosition` computed by the `switch whence` block of
`simpleFileChunkReader.Seek` (fileChunkReader.go, lines 116–125).
`whence` 0/1/2 are Go's `io.SeekStart`/`io.SeekCurrent`/`io.SeekEnd`;
any other value leaves `newPosition` at the current position, as the
Go `switch` with no `default` does. -/
def seekNewPosition (cr : ChunkReaderState) (offset : Int) (whence : Nat) : Int :=
  match whence with
  | 0 => offset
  | 1 => cr.positionInChunk + offset
  | 2 => cr.length - offset
  | _ => cr.positionInChunk

/-- `simpleFileChunkReader.Seek` (fileChunkReader.go, lines 114–136). -/
def Seek (cr : ChunkReaderState) (offset : Int) (whence : Nat) :
    Except String Int × ChunkReaderState :=
  let newPosition := seekNewPosition cr offset whence
  if newPosition < 0 then
    (Except.error "cannot seek to before beginning", cr)
  else
    let newPosition := if newPosition > cr.length then cr.length else newPosition
    (Except.ok newPosition, { cr with positionInChunk := newPosition })

/-- The Go `error` results of `Read`: `io.EOF` or a propagated prefetch
error. -/
inductive ReadError where
  | eof
  | other (msg : String)
deriving Repr, DecidableEq

/-- `simpleFileChunkReader.Read` (fileChunkReader.go, lines 139–169).
Instead of Go's destination slice `p` we take its length `pLen` and
return the list of bytes `copy` placed into it —
`copy(p, cr.buffer[pos:])` copies `min(len(p), len(buffer)-pos)` bytes,
i.e. `(buffer.drop pos).take pLen`. -/
def Read (cr : ChunkReaderState) (pLen : Nat) (oc : ReadAtOutcome) :
    (List Nat × Option ReadError) × ChunkReaderState :=
  if cr.positionInChunk ≥ cr.length then
    (([], some ReadError.eof), cr)
  else
    match Prefetch cr oc with
    | (Except.error e, cr2) => (([], some (ReadError.other e)), cr2)
    | (Except.ok _, cr2) =>
      let buf := cr2.buffer.getD []
      let copied := (buf.drop cr2.positionInChunk.toNat).take pLen
      let cr3 := { cr2 with positionInChunk := cr2.positionInChunk + copied.length }
      if cr3.positionInChunk ≥ cr3.length then
        ((copied, some ReadError.eof), discardBuffer cr3)
      else
        ((copied, none), cr3)

/-- `NewSimpleFileChunkReader` (fileChunkReader.go, lines 68–78); the
`panic` on `length <= 0` is `none`.  `tracker` is the current value of
the injected shared counter. -/
def NewSimpleFileChunkReader (offset length tracker : Int) :
    Option ChunkReaderState :=
  if length ≤ 0 then none
  else some { offsetInFile := offset, length := length, positionInChunk := 0,
              buffer := none, prefetchedByteTracker := tracker }

end AzCopy

namespace AzCopy

/-! ### multiSizeSlicePool.go -/

/-- The bucket-index formula exactly as the specification writes it:
`slotIndex = floor(log2(desiredSize))`, incremented by 1 unless
`desiredSize` is an exact power of two. -/
def slotIndexSpec (desiredSize : Nat) : Nat :=
  if 2 ^ Nat.log 2 desiredSize = desiredSize then Nat.log 2 desiredSize
  else Nat.log 2 desiredSize + 1

/-- A Go byte slice, reduced to its length and capacity (the pool never
inspects contents). -/
structure ByteSlice where
  len : Nat
  cap : Nat
deriving Repr, DecidableEq

/-- Go reslicing `s[0:newLen]`: sets the length, keeps the capacity,
panics (`none`) when `newLen` exceeds the capacity. -/
def goReslice (s : ByteSlice) (newLen : Nat) : Option ByteSlice :=
  if newLen ≤ s.cap then some { s with len := newLen } else none

/-- `simpleSlicePool` (multiSizeSlicePool.go, lines 45–47): a buffered
channel of slices, modelled as a FIFO list bounded by the channel's
buffer capacity. -/
structure simpleSlicePool where
  c : List ByteSlice
  chanCapacity : Nat
deriving Repr, DecidableEq

/-- `newSimpleSlicePool` (multiSizeSlicePool.go, lines 49–53). -/
def newSimpleSlicePool (maxCapacity : Nat) : simpleSlicePool :=
  { c := [], chanCapacity := maxCapacity }

/-- `simpleSlicePool.Get` (multiSizeSlicePool.go, lines 55–62):
non-blocking receive — the oldest pooled slice, or `none` when the
channel is empty. -/
def simpleSlicePool.Get (p : simpleSlicePool) :
    Option ByteSlice × simpleSlicePool :=
  match p.c with
  | [] => (none, p)
  | x :: xs => (some x, { p with c := xs })

/-- `simpleSlicePool.Put` (multiSizeSlicePool.go, lines 64–71):
non-blocking send — drops the slice when the channel is full. -/
def simpleSlicePool.Put (p : simpleSlicePool) (b : ByteSlice) :
    simpleSlicePool :=
  if p.c.length < p.chanCapacity then { p with c := p.c ++ [b] } else p

/-- Helper for `bits.Len32`: number of binary digits, peeling one bit
per step of fuel.  32 steps cover every `uint32` value. -/
def len32Aux : Nat → Nat → Nat
  | 0, _ => 0
  | fuel + 1, n => if n = 0 then 0 else len32Aux fuel (n / 2) + 1

/-- `bits.Len32` of the Go standard library: the number of bits needed to
represent a `uint32` value. -/
def len32 (x : Nat) : Nat := len32Aux 32 x

/-- `bits.LeadingZeros32` of the Go standard library, which equals
`32 - Len32(x)`. -/
def leadingZeros32 (x : Nat) : Nat := 32 - len32 x

/-- Helper for `bits.OnesCount32`, peeling one bit per step of fuel. -/
def onesCount32Aux : Nat → Nat → Nat
  | 0, _ => 0
  | fuel + 1, n => if n = 0 then 0 else n % 2 + onesCount32Aux fuel (n / 2)

/-- `bits.OnesCount32` of the Go standard library (population count of a
`uint32` value). -/
def onesCount32 (x : Nat) : Nat := onesCount32Aux 32 x

/-- `getSlotInfo` (multiSizeSlicePool.go, lines 94–122); the `panic` on a
zero length is `none`.  Returns `(slotIndex, maxCapInSlot)`. -/
def getSlotInfo (exactSliceLength : Nat) : Option (Nat × Nat) :=
  if exactSliceLength = 0 then none
  else
    let rawSlotIndex := 31 - leadingZeros32 exactSliceLength
    let isExactPowerOfTwo := onesCount32 exactSliceLength = 1
    let slotIndex := if isExactPowerOfTwo then rawSlotIndex else rawSlotIndex + 1
    some (slotIndex, 2 ^ slotIndex)

/-- `multiSizeSlicePool` (multiSizeSlicePool.go, lines 78–82). -/
structure multiSizeSlicePool where
  poolsBySize : List simpleSlicePool
deriving Repr, DecidableEq

/-- `NewMultiSizeSlicePool` (multiSizeSlicePool.go, lines 85–92). -/
def NewMultiSizeSlicePool (maxSliceLength : Nat) : Option multiSizeSlicePool :=
  (getSlotInfo maxSliceLength).map fun info =>
    { poolsBySize := List.replicate (info.1 + 1) (newSimpleSlicePool 1000) }

/-- `multiSizeSlicePool.RentSlice` (multiSizeSlicePool.go, lines
128–152).  `none` is a panic: either inside `getSlotInfo` (size 0), an
out-of-range index into `poolsBySize`, or a reslice beyond capacity. -/
def RentSlice (mp : multiSizeSlicePool) (desiredSize : Nat) :
    Option (ByteSlice × multiSizeSlicePool) :=
  match getSlotInfo desiredSize with
  | none => none
  | some (slotIndex, maxCapInSlot) =>
    match mp.poolsBySize[slotIndex]? with
    | none => none
    | some pool =>
      match pool.Get with
      | (some typedSlice, pool2) =>
        (goReslice typedSlice desiredSize).map fun s =>
          (s, { poolsBySize := mp.poolsBySize.set slotIndex pool2 })
      | (none, _) =>
        some ({ len := desiredSize, cap := maxCapInSlot }, mp)

/-- `multiSizeSlicePool.ReturnSlice` (multiSizeSlicePool.go, lines
155–163): files the slice by its *capacity*. -/
def ReturnSlice (mp : multiSizeSlicePool) (slice : ByteSlice) :
    Option multiSizeSlicePool :=
  match getSlotInfo slice.cap with
  | none => none
  | some (slotIndex, _) =>
    match mp.poolsBySize[slotIndex]? with
    | none => none
    | some pool =>
      some { poolsBySize := mp.poolsBySize.set slotIndex (pool.Put slice) }

end AzCopy

namespace AzCopy

/-! ### Arithmetic facts about `len32Aux` and `onesCount32Aux` -/

theorem len32Aux_zero (fuel : Nat) : len32Aux fuel 0 = 0 := by
  cases fuel <;> simp [len32Aux]

theorem len32Aux_eq_log_add_one :
    ∀ fuel n, 0 < n → n < 2 ^ fuel → len32Aux fuel n = Nat.log 2 n + 1 := by
  intro fuel
  induction fuel with
  | zero => intro n h1 h2; omega
  | succ fuel ih =>
    intro n h1 h2
    rw [show len32Aux (fuel + 1) n = if n = 0 then 0 else len32Aux fuel (n / 2) + 1
        from rfl]
    rw [if_neg (by omega)]
    rcases Nat.lt_or_ge n 2 with hlt | hge
    · have hn1 : n = 1 := by omega
      subst hn1
      simp [len32Aux_zero, Nat.log_one_right]
    · have hd1 : 0 < n / 2 := by omega
      have hp : 2 ^ (fuel + 1) = 2 * 2 ^ fuel := by ring
      have hd2 : n / 2 < 2 ^ fuel := by omega
      rw [ih (n / 2) hd1 hd2]
      have hlog : 0 < Nat.log 2 n := Nat.log_pos (by omega) hge
      have := Nat.log_div_base 2 n
      omega

theorem onesCount32Aux_zero (fuel : Nat) : onesCount32Aux fuel 0 = 0 := by
  cases fuel <;> simp [onesCount32Aux]

theorem onesCount32Aux_succ (fuel n : Nat) (h : 0 < n) :
    onesCount32Aux (fuel + 1) n = n % 2 + onesCount32Aux fuel (n / 2) := by
  rw [show onesCount32Aux (fuel + 1) n =
      if n = 0 then 0 else n % 2 + onesCount32Aux fuel (n / 2) from rfl]
  rw [if_neg (by omega)]

theorem onesCount32Aux_pos :
    ∀ fuel n, 0 < n → n < 2 ^ fuel → 0 < onesCount32Aux fuel n := by
  intro fuel
  induction fuel with
  | zero => intro n h1 h2; omega
  | succ fuel ih =>
    intro n h1 h2
    rw [onesCount32Aux_succ fuel n h1]
    rcases Nat.even_or_odd n with he | ho
    · have hd1 : 0 < n / 2 := by
        rcases he with ⟨c, hc⟩; omega
      have hp : 2 ^ (fuel + 1) = 2 * 2 ^ fuel := by ring
      have hd2 : n / 2 < 2 ^ fuel := by omega
      have := ih (n / 2) hd1 hd2
      omega
    · rcases ho with ⟨c, hc⟩; omega

theorem onesCount32Aux_two_pow :
    ∀ fuel k, 2 ^ k < 2 ^ fuel → onesCount32Aux fuel (2 ^ k) = 1 := by
  intro fuel
  induction fuel with
  | zero =>
    intro k h
    have : 0 < 2 ^ k := Nat.pos_pow_of_pos _ (by omega)
    omega
  | succ fuel ih =>
    intro k h
    have hpos : 0 < 2 ^ k := Nat.pos_pow_of_pos _ (by omega)
    rw [onesCount32Aux_succ fuel _ hpos]
    match k with
    | 0 => simp [onesCount32Aux_zero]
    | j + 1 =>
      have hm : 2 ^ (j + 1) = 2 * 2 ^ j := by ring
      have h2 : 2 ^ (j + 1) % 2 = 0 := by omega
      have h3 : 2 ^ (j + 1) / 2 = 2 ^ j := by omega
      have hf : 2 ^ (fuel + 1) = 2 * 2 ^ fuel := by ring
      have hj : 2 ^ j < 2 ^ fuel := by omega
      rw [h2, h3, ih j hj]

theorem eq_two_pow_of_onesCount32Aux :
    ∀ fuel n, 0 < n → n < 2 ^ fuel → onesCount32Aux fuel n = 1 →
      ∃ k, n = 2 ^ k := by
  intro fuel
  induction fuel with
  | zero => intro n h1 h2; omega
  | succ fuel ih =>
    intro n h1 h2 hco
    rw [onesCount32Aux_succ fuel n h1] at hco
    rcases Nat.lt_or_ge n 2 with hlt | hge
    · exact ⟨0, by omega⟩
    · have hp : 2 ^ (fuel + 1) = 2 * 2 ^ fuel := by ring
      have hd1 : 0 < n / 2 := by omega
      have hd2 : n / 2 < 2 ^ fuel := by omega
      rcases Nat.even_or_odd n with he | ho
      · have hm2 : n % 2 = 0 := by
          rcases he with ⟨c, hc⟩; omega
        rcases ih (n / 2) hd1 hd2 (by omega) with ⟨k, hk⟩
        refine ⟨k + 1, ?_⟩
        have : 2 ^ (k + 1) = 2 * 2 ^ k := by ring
        omega
      · have hm2 : n % 2 = 1 := by
          rcases ho with ⟨c, hc⟩; omega
        have := onesCount32Aux_pos fuel (n / 2) hd1 hd2
        omega

theorem onesCount32_eq_one_iff (n : Nat) (h1 : 0 < n) (h2 : n < 2 ^ 32) :
    onesCount32 n = 1 ↔ 2 ^ Nat.log 2 n = n := by
  constructor
  · intro hco
    rcases eq_two_pow_of_onesCount32Aux 32 n h1 h2 hco with ⟨k, hk⟩
    rw [hk, Nat.log_pow (by omega)]
  · intro hpow
    show onesCount32Aux 32 n = 1
    conv_lhs => rw [← hpow]
    apply onesCount32Aux_two_pow
    calc 2 ^ Nat.log 2 n = n := hpow
    _ < 2 ^ 32 := h2

/-- `getSlotInfo` computes exactly the specification's bucket formula:
`floor(log2 n)`, plus one unless `n` is an exact power of two, paired
with `2 ^ slotIndex`. -/
theorem getSlotInfo_eq_spec (n : Nat) (h1 : 0 < n) (h2 : n < 2 ^ 32) :
    getSlotInfo n = some (slotIndexSpec n, 2 ^ slotIndexSpec n) := by
  have hlen : len32 n = Nat.log 2 n + 1 := len32Aux_eq_log_add_one 32 n h1 h2
  have hlog : Nat.log 2 n < 32 := Nat.log_lt_of_lt_pow (by omega) h2
  have hraw : 31 - leadingZeros32 n = Nat.log 2 n := by
    unfold leadingZeros32
    omega
  have hiff := onesCount32_eq_one_iff n h1 h2
  unfold getSlotInfo slotIndexSpec
  rw [if_neg (by omega : ¬ n = 0)]
  simp only [hraw]
  by_cases hpow : 2 ^ Nat.log 2 n = n
  · rw [if_pos (hiff.2 hpow), if_pos hpow]
  · rw [if_neg (fun hc => hpow (hiff.1 hc)), if_neg hpow]

end AzCopy

namespace AzCopy

/-! ### Basic lemmas about the chunk reader -/

theorem fillBuffer_length (bufLen : Nat) (data : List Nat) :
    (fillBuffer bufLen data).length = bufLen := by
  unfold fillBuffer
  rcases Nat.le_total data.length bufLen with h | h <;>
    simp [List.length_take, List.length_replicate] <;> omega

/-- A reader whose positioned read returns exactly `length` bytes
prefetches successfully: the buffer is materialized and the tracker grows
by `length`. -/
theorem Prefetch_full_success (cr : ChunkReaderState) (data : List Nat)
    (hbuf : cr.buffer = none) (hlen : (data.length : Int) = cr.length) :
    Prefetch cr (ReadAtOutcome.success data) =
      (Except.ok (),
       { cr with buffer := some (fillBuffer cr.length.toNat data),
                 prefetchedByteTracker := cr.prefetchedByteTracker + cr.length }) := by
  have h1 : cr.length.toNat = data.length := by omega
  simp only [Prefetch, hbuf, h1, Nat.min_self]
  rw [if_neg (by omega), hlen]

theorem discardBuffer_of_none (cr : ChunkReaderState) (h : cr.buffer = none) :
    discardBuffer cr = cr := by
  simp only [discardBuffer, h]

theorem discardBuffer_of_some (cr : ChunkReaderState) (b : List Nat)
    (h : cr.buffer = some b) :
    discardBuffer cr =
      { cr with buffer := none,
                prefetchedByteTracker := cr.prefetchedByteTracker - cr.length } := by
  simp only [discardBuffer, h]

theorem discardBuffer_buffer_none (cr : ChunkReaderState) :
    (discardBuffer cr).buffer = none := by
  unfold discardBuffer
  cases h : cr.buffer
  · simpa using h
  · simp

theorem discardBuffer_idem (cr : ChunkReaderState) :
    discardBuffer (discardBuffer cr) = discardBuffer cr :=
  discardBuffer_of_none _ (discardBuffer_buffer_none cr)

/-- One full materialize→discard cycle: a `Prefetch` whose positioned
read returns `data`, followed by the discard path shared by the
EOF-triggered auto-discard and `Close`. -/
def prefetchDiscardCycle (data : List Nat) (cr : ChunkReaderState) :
    ChunkReaderState :=
  discardBuffer (Prefetch cr (ReadAtOutcome.success data)).2

theorem prefetchDiscardCycle_eq_self (cr : ChunkReaderState) (data : List Nat)
    (hbuf : cr.buffer = none) (hlen : (data.length : Int) = cr.length) :
    prefetchDiscardCycle data cr = cr := by
  unfold prefetchDiscardCycle
  rw [Prefetch_full_success cr data hbuf hlen]
  rw [discardBuffer_of_some _ (fillBuffer cr.length.toNat data) rfl]
  cases cr
  simp_all

end AzCopy

namespace AzCopy

/-- A concrete reader over bytes `[offset 10, offset 13)` of its file,
not yet materialized, with the shared tracker currently at 100. -/
def sampleReader : ChunkReaderState :=
  { offsetInFile := 10, length := 3, positionInChunk := 0,
    buffer := none, prefetchedByteTracker := 100 }

/-- A concrete length-2 reader used to exercise the short-read path. -/
def shortReadReader : ChunkReaderState :=
  { offsetInFile := 0, length := 2, positionInChunk := 0,
    buffer := none, prefetchedByteTracker := 0 }

/-- C1: when the positioned read succeeds but returns fewer than `length`
bytes, `Prefetch` does return the explicit short-read error, but the
reader KEEPS the freshly allocated buffer — the half-filled buffer is not
discarded.  Evaluated at a length-2 reader whose read returns the single
byte 7: afterwards the reader still holds the buffer `[7, 0]`. -/
theorem C1_short_read_keeps_buffer :
    (Prefetch shortReadReader (ReadAtOutcome.success [7])).1 =
      Except.error "bytes read not equal to expected length. Chunk reader must be constructed so that it won't read past end of file" ∧
    (Prefetch shortReadReader (ReadAtOutcome.success [7])).2.buffer =
      some [7, 0] := by
  exact ⟨rfl, rfl⟩

/-- C2: a full materialize→discard cycle has net tracker effect zero: a
successful `Prefetch` from the unmaterialized state adds exactly `length`
to the tracker once; the discard shared by the EOF auto-discard and
`Close` subtracts exactly `length` once; discard is idempotent and a
no-op when no buffer is held; and `k` repetitions of the cycle (any `k`,
e.g. 10000) leave the tracker at its starting value. -/
theorem C2_cycle_net_zero (cr : ChunkReaderState) (data : List Nat) (k : Nat)
    (hbuf : cr.buffer = none) (hlen : (data.length : Int) = cr.length) :
    (Prefetch cr (ReadAtOutcome.success data)).1 = Except.ok () ∧
    (Prefetch cr (ReadAtOutcome.success data)).2.prefetchedByteTracker
      = cr.prefetchedByteTracker + cr.length ∧
    (discardBuffer (Prefetch cr (ReadAtOutcome.success data)).2).prefetchedByteTracker
      = cr.prefetchedByteTracker ∧
    (Close (Prefetch cr (ReadAtOutcome.success data)).2).2.prefetchedByteTracker
      = cr.prefetchedByteTracker ∧
    discardBuffer (discardBuffer (Prefetch cr (ReadAtOutcome.success data)).2)
      = discardBuffer (Prefetch cr (ReadAtOutcome.success data)).2 ∧
    discardBuffer cr = cr ∧
    ((prefetchDiscardCycle data)^[k] cr).prefetchedByteTracker
      = cr.prefetchedByteTracker := by
  have hP := Prefetch_full_success cr data hbuf hlen
  have hcyc := prefetchDiscardCycle_eq_self cr data hbuf hlen
  refine ⟨?_, ?_, ?_, ?_, discardBuffer_idem _, discardBuffer_of_none cr hbuf, ?_⟩
  · rw [hP]
  · rw [hP]
  · have : discardBuffer (Prefetch cr (ReadAtOutcome.success data)).2
        = prefetchDiscardCycle data cr := rfl
    rw [this, hcyc]
  · show (discardBuffer (Prefetch cr (ReadAtOutcome.success data)).2).prefetchedByteTracker
      = cr.prefetchedByteTracker
    have : discardBuffer (Prefetch cr (ReadAtOutcome.success data)).2
        = prefetchDiscardCycle data cr := rfl
    rw [this, hcyc]
  · rw [Function.iterate_fixed hcyc]

/-- Witness for C2 at a concrete length-3 reader, read data `[7, 8, 9]`,
and 10000 repetitions of the cycle. -/
theorem C2_cycle_net_zero_witness :
    sampleReader.buffer = none ∧
    ((([7, 8, 9] : List Nat).length : Int) = sampleReader.length) ∧
    ((Prefetch sampleReader (ReadAtOutcome.success [7, 8, 9])).1 = Except.ok () ∧
     (Prefetch sampleReader (ReadAtOutcome.success [7, 8, 9])).2.prefetchedByteTracker
       = sampleReader.prefetchedByteTracker + sampleReader.length ∧
     (discardBuffer (Prefetch sampleReader (ReadAtOutcome.success [7, 8, 9])).2).prefetchedByteTracker
       = sampleReader.prefetchedByteTracker ∧
     (Close (Prefetch sampleReader (ReadAtOutcome.success [7, 8, 9])).2).2.prefetchedByteTracker
       = sampleReader.prefetchedByteTracker ∧
     discardBuffer (discardBuffer (Prefetch sampleReader (ReadAtOutcome.success [7, 8, 9])).2)
       = discardBuffer (Prefetch sampleReader (ReadAtOutcome.success [7, 8, 9])).2 ∧
     discardBuffer sampleReader = sampleReader ∧
     ((prefetchDiscardCycle [7, 8, 9])^[10000] sampleReader).prefetchedByteTracker
       = sampleReader.prefetchedByteTracker) :=
  ⟨rfl, rfl, C2_cycle_net_zero sampleReader [7, 8, 9] 10000 rfl rfl⟩

end AzCopy

namespace AzCopy

/-- C4: for every `desiredSize > 0` in the `uint32` range, the
bucket-index computation yields `slotIndex = floor(log2 desiredSize)`,
incremented by 1 unless `desiredSize` is an exact power of two, with
`maxCapacityInSlot = 2 ^ slotIndex`; in particular sizes 1, 2, 3, 256 and
257 map to buckets 0, 1, 2, 8 and 9 with capacities 1, 2, 4, 256 and 512. -/
theorem C4_bucket_index (n : Nat) (h1 : 0 < n) (h2 : n < 2 ^ 32) :
    getSlotInfo n = some (slotIndexSpec n, 2 ^ slotIndexSpec n) ∧
    getSlotInfo 1 = some (0, 1) ∧ getSlotInfo 2 = some (1, 2) ∧
    getSlotInfo 3 = some (2, 4) ∧ getSlotInfo 256 = some (8, 256) ∧
    getSlotInfo 257 = some (9, 512) :=
  ⟨getSlotInfo_eq_spec n h1 h2, by decide, by decide, by decide, by decide,
   by decide⟩

/-- Witness for C4 at `desiredSize = 257`. -/
theorem C4_bucket_index_witness :
    0 < 257 ∧ 257 < 2 ^ 32 ∧
    getSlotInfo 257 = some (slotIndexSpec 257, 2 ^ slotIndexSpec 257) :=
  ⟨by decide, by decide, (C4_bucket_index 257 (by decide) (by decide)).1⟩

/-- C3 (counterexample): `RentSlice` does fail for a `desiredSize`
greater than the pool's `maxSliceLength`.  On the pool built by
`NewMultiSizeSlicePool 1` (one bucket, index 0), `RentSlice 2` computes
slot index 1 and indexes past the end of `poolsBySize` — a panic,
modelled as `none` — instead of returning a 2-byte slice. -/
theorem C3_rent_slice_counterexample :
    (NewMultiSizeSlicePool 1).isSome = true ∧
    ((NewMultiSizeSlicePool 1).bind fun mp => RentSlice mp 2) = none :=
  ⟨by decide, by decide⟩

/-- C3 (amended): for every `desiredSize > 0` whose slot index falls
inside the pool's bucket array, and whose bucket holds only slices of
capacity at least `desiredSize`, `RentSlice` neither blocks nor fails: it
returns a slice of length exactly `desiredSize`, and when the bucket is
empty it allocates a fresh slice of capacity `2 ^ slotIndex` (the pool
itself unchanged).  For a `desiredSize` whose slot index lies past the
bucket array — which includes every size above `maxSliceLength` rounded
up to its bucket capacity — `RentSlice` panics instead. -/
theorem C3_rent_slice (mp : multiSizeSlicePool) (n slotIndex maxCapInSlot : Nat)
    (pool : simpleSlicePool)
    (hinfo : getSlotInfo n = some (slotIndex, maxCapInSlot))
    (hpool : mp.poolsBySize[slotIndex]? = some pool)
    (hcap : ∀ s ∈ pool.c, n ≤ s.cap) :
    ∃ s mp2, RentSlice mp n = some (s, mp2) ∧ s.len = n ∧
      (pool.c = [] → s.cap = maxCapInSlot ∧ mp2 = mp) := by
  simp only [RentSlice, hinfo, hpool]
  match hc : pool.c with
  | [] =>
    refine ⟨{ len := n, cap := maxCapInSlot }, mp, ?_, rfl, fun _ => ⟨rfl, rfl⟩⟩
    simp only [simpleSlicePool.Get, hc]
  | x :: xs =>
    have hx : n ≤ x.cap := hcap x (by rw [hc]; exact List.mem_cons_self x xs)
    refine ⟨{ x with len := n },
            { poolsBySize := mp.poolsBySize.set slotIndex { pool with c := xs } },
            ?_, rfl, fun h => absurd h (List.cons_ne_nil x xs)⟩
    simp only [simpleSlicePool.Get, hc]
    simp [goReslice, hx]

/-- Witness for the amended C3: renting 3 bytes from a freshly created
pool for `maxSliceLength = 4` (three empty buckets). -/
theorem C3_rent_slice_witness :
    getSlotInfo 3 = some (2, 4) ∧
    ({ poolsBySize := List.replicate 3 (newSimpleSlicePool 1000) } :
        multiSizeSlicePool).poolsBySize[2]? = some (newSimpleSlicePool 1000) ∧
    (∀ s ∈ (newSimpleSlicePool 1000).c, 3 ≤ s.cap) ∧
    (∃ s mp2,
      RentSlice { poolsBySize := List.replicate 3 (newSimpleSlicePool 1000) } 3
        = some (s, mp2) ∧ s.len = 3 ∧
      ((newSimpleSlicePool 1000).c = [] → s.cap = 4 ∧
        mp2 = { poolsBySize := List.replicate 3 (newSimpleSlicePool 1000) })) :=
  ⟨by decide, by decide, by decide,
   C3_rent_slice _ 3 2 4 (newSimpleSlicePool 1000) (by decide) (by decide)
     (by decide)⟩

end AzCopy

namespace AzCopy

/-- After any `Prefetch` the state is either untouched (already
materialized) or differs only in `buffer` (now a full `length`-byte
buffer) and possibly the tracker. -/
theorem Prefetch_state (cr : ChunkReaderState) (oc : ReadAtOutcome) :
    (Prefetch cr oc).2 = cr ∨
    ∃ d t, (Prefetch cr oc).2 =
      { cr with buffer := some (fillBuffer cr.length.toNat d),
                prefetchedByteTracker := t } := by
  cases hb : cr.buffer with
  | some b => left; simp [Prefetch, hb]
  | none =>
    right
    cases oc with
    | failure pd msg =>
      exact ⟨pd, cr.prefetchedByteTracker, by simp [Prefetch, hb]⟩
    | success data =>
      by_cases hsh : ((min data.length cr.length.toNat : Nat) : Int) ≠ cr.length
      · refine ⟨data, cr.prefetchedByteTracker, ?_⟩
        simp only [Prefetch, hb]
        rw [if_pos hsh]
      · refine ⟨data,
          cr.prefetchedByteTracker + ((min data.length cr.length.toNat : Nat) : Int), ?_⟩
        simp only [Prefetch, hb]
        rw [if_neg hsh]

theorem Prefetch_positionInChunk (cr : ChunkReaderState) (oc : ReadAtOutcome) :
    (Prefetch cr oc).2.positionInChunk = cr.positionInChunk := by
  rcases Prefetch_state cr oc with h | ⟨d, t, h⟩ <;> rw [h]

theorem Prefetch_length (cr : ChunkReaderState) (oc : ReadAtOutcome) :
    (Prefetch cr oc).2.length = cr.length := by
  rcases Prefetch_state cr oc with h | ⟨d, t, h⟩ <;> rw [h]

/-- `Prefetch` preserves well-formedness of the buffer: any materialized
buffer holds exactly `length` bytes. -/
theorem Prefetch_wf (cr : ChunkReaderState) (oc : ReadAtOutcome)
    (hlen0 : 0 ≤ cr.length)
    (hwf : ∀ b, cr.buffer = some b → (b.length : Int) = cr.length) :
    ∀ b, (Prefetch cr oc).2.buffer = some b → (b.length : Int) = cr.length := by
  rcases Prefetch_state cr oc with h | ⟨d, t, h⟩
  · rw [h]; exact hwf
  · rw [h]
    intro b hb
    have : b = fillBuffer cr.length.toNat d := by
      simpa using hb.symm
    rw [this, fillBuffer_length]
    omega

/-- A successful `Prefetch` leaves a materialized buffer behind. -/
theorem Prefetch_ok_buffer (cr : ChunkReaderState) (oc : ReadAtOutcome)
    (hok : (Prefetch cr oc).1 = Except.ok ()) :
    ∃ b, (Prefetch cr oc).2.buffer = some b := by
  cases hb : cr.buffer with
  | some b =>
    refine ⟨b, ?_⟩
    have : Prefetch cr oc = (Except.ok (), cr) := by simp [Prefetch, hb]
    rw [this]
    exact hb
  | none =>
    cases oc with
    | failure pd msg =>
      have hPe : (Prefetch cr (ReadAtOutcome.failure pd msg)).1
          = Except.error msg := by
        simp only [Prefetch, hb]
      rw [hPe] at hok
      exact Except.noConfusion hok
    | success data =>
      refine ⟨fillBuffer cr.length.toNat data, ?_⟩
      simp only [Prefetch, hb]
      by_cases hsh : ((min data.length cr.length.toNat : Nat) : Int) ≠ cr.length
      · rw [if_pos hsh]
      · rw [if_neg hsh]

/-- Unfolding of `Read` when the cursor is inside the chunk and the
prefetch succeeds. -/
theorem Read_ok_eq (cr : ChunkReaderState) (pLen : Nat) (oc : ReadAtOutcome)
    (b : List Nat)
    (hlt : ¬ cr.positionInChunk ≥ cr.length)
    (hok : (Prefetch cr oc).1 = Except.ok ())
    (hb : (Prefetch cr oc).2.buffer = some b) :
    Read cr pLen oc =
      (let cr2 := (Prefetch cr oc).2
       let copied := (b.drop cr2.positionInChunk.toNat).take pLen
       let cr3 := { cr2 with positionInChunk := cr2.positionInChunk + copied.length }
       if cr3.positionInChunk ≥ cr3.length then
         ((copied, some ReadError.eof), discardBuffer cr3)
       else ((copied, none), cr3)) := by
  unfold Read
  rw [if_neg hlt]
  rcases hP : Prefetch cr oc with ⟨r, cr2⟩
  rw [hP] at hok hb
  cases r with
  | error e => exact Except.noConfusion hok
  | ok u =>
    simp only
    rw [show cr2.buffer.getD [] = b by rw [hb]; rfl]

end AzCopy

namespace AzCopy

theorem discardBuffer_positionInChunk (cr : ChunkReaderState) :
    (discardBuffer cr).positionInChunk = cr.positionInChunk := by
  unfold discardBuffer
  cases h : cr.buffer <;> simp [h]

theorem discardBuffer_length (cr : ChunkReaderState) :
    (discardBuffer cr).length = cr.length := by
  unfold discardBuffer
  cases h : cr.buffer <;> simp [h]

theorem discardBuffer_tracker_of_some (cr : ChunkReaderState) (b : List Nat)
    (h : cr.buffer = some b) :
    (discardBuffer cr).prefetchedByteTracker
      = cr.prefetchedByteTracker - cr.length := by
  rw [discardBuffer_of_some cr b h]

/-- C5: with the cursor inside the chunk and a materialized or
materializable buffer, `Read` copies `min(len p, length - positionInChunk)`
bytes out of the buffer starting at `positionInChunk` and advances the
cursor by that count; when the cursor thereby reaches `length`, the very
same call discards the buffer (tracker decremented by `length`) and
reports EOF together with the copied byte count; otherwise the buffer and
tracker are untouched and no error is reported. -/
theorem C5_read_copies (cr : ChunkReaderState) (pLen : Nat) (oc : ReadAtOutcome)
    (hpos0 : 0 ≤ cr.positionInChunk) (hposlt : cr.positionInChunk < cr.length)
    (hwf : ∀ b, cr.buffer = some b → (b.length : Int) = cr.length)
    (hok : (Prefetch cr oc).1 = Except.ok ()) :
    ∃ b, (Prefetch cr oc).2.buffer = some b ∧
      (Read cr pLen oc).1.1 = (b.drop cr.positionInChunk.toNat).take pLen ∧
      (Read cr pLen oc).1.1.length
        = min pLen (cr.length - cr.positionInChunk).toNat ∧
      (Read cr pLen oc).2.positionInChunk
        = cr.positionInChunk + ((Read cr pLen oc).1.1.length : Int) ∧
      (cr.positionInChunk + ((Read cr pLen oc).1.1.length : Int) ≥ cr.length →
        (Read cr pLen oc).1.2 = some ReadError.eof ∧
        (Read cr pLen oc).2.buffer = none ∧
        (Read cr pLen oc).2.prefetchedByteTracker
          = (Prefetch cr oc).2.prefetchedByteTracker - cr.length) ∧
      (cr.positionInChunk + ((Read cr pLen oc).1.1.length : Int) < cr.length →
        (Read cr pLen oc).1.2 = none ∧
        (Read cr pLen oc).2.buffer = some b ∧
        (Read cr pLen oc).2.prefetchedByteTracker
          = (Prefetch cr oc).2.prefetchedByteTracker) := by
  obtain ⟨b, hb⟩ := Prefetch_ok_buffer cr oc hok
  have hwf2 := Prefetch_wf cr oc (by omega) hwf b hb
  have hpos := Prefetch_positionInChunk cr oc
  have hlen := Prefetch_length cr oc
  have hRead := Read_ok_eq cr pLen oc b (by omega) hok hb
  simp only [] at hRead
  simp only [hpos, hlen] at hRead
  have hcoplen : ((b.drop cr.positionInChunk.toNat).take pLen).length
      = min pLen (cr.length - cr.positionInChunk).toNat := by
    simp only [List.length_take, List.length_drop]
    omega
  refine ⟨b, hb, ?_⟩
  by_cases hEOF : cr.positionInChunk
      + (((b.drop cr.positionInChunk.toNat).take pLen).length : Int) ≥ cr.length
  · rw [if_pos hEOF] at hRead
    rw [hRead]
    refine ⟨rfl, hcoplen, ?_, fun _ => ⟨rfl, discardBuffer_buffer_none _, ?_⟩,
      fun hcon => ?_⟩
    · exact discardBuffer_positionInChunk _
    · exact discardBuffer_tracker_of_some _ b hb
    · exact absurd
        (show cr.positionInChunk
            + (((b.drop cr.positionInChunk.toNat).take pLen).length : Int) < cr.length
          from hcon) (by omega)
  · rw [if_neg hEOF] at hRead
    rw [hRead]
    refine ⟨rfl, hcoplen, rfl, fun hcon => ?_, fun _ => ⟨rfl, hb, rfl⟩⟩
    exact absurd
      (show cr.positionInChunk
          + (((b.drop cr.positionInChunk.toNat).take pLen).length : Int) ≥ cr.length
        from hcon) (by omega)

end AzCopy

namespace AzCopy

/-- Witness for C5: a length-3 reader, destination of length 5, read data
`[7, 8, 9]` — the single call copies all 3 bytes, reports EOF, and
discards the buffer. -/
theorem C5_read_copies_witness :
    0 ≤ sampleReader.positionInChunk ∧
    sampleReader.positionInChunk < sampleReader.length ∧
    (Prefetch sampleReader (ReadAtOutcome.success [7, 8, 9])).1 = Except.ok () ∧
    (∃ b, (Prefetch sampleReader (ReadAtOutcome.success [7, 8, 9])).2.buffer = some b ∧
      (Read sampleReader 5 (ReadAtOutcome.success [7, 8, 9])).1.1
        = (b.drop sampleReader.positionInChunk.toNat).take 5 ∧
      (Read sampleReader 5 (ReadAtOutcome.success [7, 8, 9])).1.1.length
        = min 5 (sampleReader.length - sampleReader.positionInChunk).toNat ∧
      (Read sampleReader 5 (ReadAtOutcome.success [7, 8, 9])).2.positionInChunk
        = sampleReader.positionInChunk
          + ((Read sampleReader 5 (ReadAtOutcome.success [7, 8, 9])).1.1.length : Int) ∧
      (sampleReader.positionInChunk
          + ((Read sampleReader 5 (ReadAtOutcome.success [7, 8, 9])).1.1.length : Int)
          ≥ sampleReader.length →
        (Read sampleReader 5 (ReadAtOutcome.success [7, 8, 9])).1.2 = some ReadError.eof ∧
        (Read sampleReader 5 (ReadAtOutcome.success [7, 8, 9])).2.buffer = none ∧
        (Read sampleReader 5 (ReadAtOutcome.success [7, 8, 9])).2.prefetchedByteTracker
          = (Prefetch sampleReader (ReadAtOutcome.success [7, 8, 9])).2.prefetchedByteTracker
            - sampleReader.length) ∧
      (sampleReader.positionInChunk
          + ((Read sampleReader 5 (ReadAtOutcome.success [7, 8, 9])).1.1.length : Int)
          < sampleReader.length →
        (Read sampleReader 5 (ReadAtOutcome.success [7, 8, 9])).1.2 = none ∧
        (Read sampleReader 5 (ReadAtOutcome.success [7, 8, 9])).2.buffer = some b ∧
        (Read sampleReader 5 (ReadAtOutcome.success [7, 8, 9])).2.prefetchedByteTracker
          = (Prefetch sampleReader (ReadAtOutcome.success [7, 8, 9])).2.prefetchedByteTracker)) :=
  ⟨by decide, by decide, rfl,
   C5_read_copies sampleReader 5 (ReadAtOutcome.success [7, 8, 9]) (by decide)
     (by decide) (fun b h => Option.noConfusion h) rfl⟩

/-- C6: once the cursor has reached (or passed) `length`, `Read` returns
`(0, EOF)` at once, leaving the state — in particular the buffer and the
tracker — untouched and never invoking `Prefetch`, whatever the
positioned read would have returned. -/
theorem C6_read_after_eof (cr : ChunkReaderState) (pLen : Nat)
    (oc : ReadAtOutcome) (h : cr.positionInChunk ≥ cr.length) :
    Read cr pLen oc = (([], some ReadError.eof), cr) := by
  unfold Read
  rw [if_pos h]

/-- Witness for C6: an exhausted length-3 reader returns `(0, EOF)` and
is unchanged even though the positioned read could have produced data. -/
theorem C6_read_after_eof_witness :
    ({ sampleReader with positionInChunk := 3 } :
        ChunkReaderState).positionInChunk
      ≥ ({ sampleReader with positionInChunk := 3 } : ChunkReaderState).length ∧
    Read { sampleReader with positionInChunk := 3 } 5
        (ReadAtOutcome.success [7, 8, 9])
      = (([], some ReadError.eof), { sampleReader with positionInChunk := 3 }) :=
  ⟨by decide,
   C6_read_after_eof { sampleReader with positionInChunk := 3 } 5
     (ReadAtOutcome.success [7, 8, 9]) (by decide)⟩

/-- C7: a `Seek` whose computed new position is negative fails with an
explicit error and leaves the whole state unchanged; a `Seek` whose
computed new position exceeds `length` silently clamps the cursor to
`length` and returns `length` with no error. -/
theorem C7_seek_bounds (cr : ChunkReaderState) (offset : Int) (whence : Nat)
    (hlen : 0 < cr.length) :
    (seekNewPosition cr offset whence < 0 →
      Seek cr offset whence
        = (Except.error "cannot seek to before beginning", cr)) ∧
    (seekNewPosition cr offset whence > cr.length →
      Seek cr offset whence
        = (Except.ok cr.length, { cr with positionInChunk := cr.length })) := by
  constructor
  · intro hneg
    unfold Seek
    rw [if_pos hneg]
  · intro hbig
    unfold Seek
    rw [if_neg (by omega), if_pos hbig]

/-- Witness for C7 on a length-3 reader: an absolute seek to -5 errors
without moving the cursor; an absolute seek to 10 clamps to 3. -/
theorem C7_seek_bounds_witness :
    0 < sampleReader.length ∧
    seekNewPosition sampleReader (-5) 0 < 0 ∧
    Seek sampleReader (-5) 0
      = (Except.error "cannot seek to before beginning", sampleReader) ∧
    seekNewPosition sampleReader 10 0 > sampleReader.length ∧
    Seek sampleReader 10 0
      = (Except.ok sampleReader.length,
         { sampleReader with positionInChunk := sampleReader.length }) :=
  ⟨by decide, by decide,
   (C7_seek_bounds sampleReader (-5) 0 (by decide)).1 (by decide),
   by decide,
   (C7_seek_bounds sampleReader 10 0 (by decide)).2 (by decide)⟩

/-- C8: a from-end `Seek` computes `length - offset` (subtraction, not
addition), and `Seek(0, from-end)` on a reader of length L returns L. -/
theorem C8_seek_from_end (cr : ChunkReaderState) (offset : Int)
    (hlen : 0 < cr.length) :
    seekNewPosition cr offset 2 = cr.length - offset ∧
    Seek cr 0 2
      = (Except.ok cr.length, { cr with positionInChunk := cr.length }) := by
  constructor
  · rfl
  · unfold Seek
    have h2 : seekNewPosition cr 0 2 = cr.length := by
      show cr.length - 0 = cr.length
      omega
    rw [h2, if_neg (by omega), if_neg (by omega)]

/-- Witness for C8 on a length-3 reader: the computed from-end position
for offset 1 is 2, and `Seek(0, from-end)` returns 3. -/
theorem C8_seek_from_end_witness :
    0 < sampleReader.length ∧
    seekNewPosition sampleReader 1 2 = sampleReader.length - 1 ∧
    Seek sampleReader 0 2
      = (Except.ok sampleReader.length,
         { sampleReader with positionInChunk := sampleReader.length }) :=
  ⟨by decide, (C8_seek_from_end sampleReader 1 (by decide)).1,
   (C8_seek_from_end sampleReader 1 (by decide)).2⟩

end AzCopy

namespace AzCopy

/-- The invariant of reachable reader states: the cursor stays within
`[0, length]`, and any materialized buffer holds exactly `length` bytes
(the structural fact `Prefetch` establishes, needed to make the cursor
bound inductive through `Read`). -/
def ReaderInv (cr : ChunkReaderState) : Prop :=
  0 ≤ cr.positionInChunk ∧ cr.positionInChunk ≤ cr.length ∧
  ∀ b, cr.buffer = some b → (b.length : Int) = cr.length

theorem readerInv_new (off len tr : Int) (cr : ChunkReaderState)
    (h : NewSimpleFileChunkReader off len tr = some cr) : ReaderInv cr := by
  unfold NewSimpleFileChunkReader at h
  by_cases hl : len ≤ 0
  · rw [if_pos hl] at h
    exact Option.noConfusion h
  · rw [if_neg hl] at h
    injection h with h2
    rw [← h2]
    refine ⟨le_refl 0, ?_, fun b hb => Option.noConfusion hb⟩
    show (0 : Int) ≤ len
    omega

theorem readerInv_prefetch (cr : ChunkReaderState) (oc : ReadAtOutcome)
    (h : ReaderInv cr) : ReaderInv (Prefetch cr oc).2 := by
  obtain ⟨h1, h2, h3⟩ := h
  refine ⟨?_, ?_, ?_⟩
  · rw [Prefetch_positionInChunk]
    exact h1
  · rw [Prefetch_positionInChunk, Prefetch_length]
    exact h2
  · intro b hb
    rw [Prefetch_length]
    exact Prefetch_wf cr oc (by omega) h3 b hb

theorem readerInv_discard (cr : ChunkReaderState) (h : ReaderInv cr) :
    ReaderInv (discardBuffer cr) := by
  obtain ⟨h1, h2, _⟩ := h
  refine ⟨?_, ?_, ?_⟩
  · rw [discardBuffer_positionInChunk]
    exact h1
  · rw [discardBuffer_positionInChunk, discardBuffer_length]
    exact h2
  · intro b hb
    rw [discardBuffer_buffer_none] at hb
    exact Option.noConfusion hb

theorem readerInv_close (cr : ChunkReaderState) (h : ReaderInv cr) :
    ReaderInv (Close cr).2 :=
  readerInv_discard cr h

theorem readerInv_seek (cr : ChunkReaderState) (offset : Int) (whence : Nat)
    (h : ReaderInv cr) : ReaderInv (Seek cr offset whence).2 := by
  obtain ⟨h1, h2, h3⟩ := h
  unfold Seek
  by_cases hneg : seekNewPosition cr offset whence < 0
  · rw [if_pos hneg]
    exact ⟨h1, h2, h3⟩
  · rw [if_neg hneg]
    by_cases hbig : seekNewPosition cr offset whence > cr.length
    · rw [if_pos hbig]
      refine ⟨?_, ?_, ?_⟩
      · show (0 : Int) ≤ cr.length
        omega
      · show cr.length ≤ cr.length
        omega
      · exact fun b hb => h3 b hb
    · rw [if_neg hbig]
      refine ⟨?_, ?_, ?_⟩
      · show (0 : Int) ≤ seekNewPosition cr offset whence
        omega
      · show seekNewPosition cr offset whence ≤ cr.length
        omega
      · exact fun b hb => h3 b hb

theorem readerInv_read (cr : ChunkReaderState) (pLen : Nat)
    (oc : ReadAtOutcome) (h : ReaderInv cr) : ReaderInv (Read cr pLen oc).2 := by
  have hInvP := readerInv_prefetch cr oc h
  obtain ⟨h1, h2, h3⟩ := h
  by_cases hge : cr.positionInChunk ≥ cr.length
  · unfold Read
    rw [if_pos hge]
    exact ⟨h1, h2, h3⟩
  · rcases hP : Prefetch cr oc with ⟨r, cr2⟩
    have hInv2 : ReaderInv cr2 := by rwa [hP] at hInvP
    unfold Read
    rw [if_neg hge, hP]
    cases r with
    | error e => exact hInv2
    | ok u =>
      obtain ⟨b, hbuf⟩ := Prefetch_ok_buffer cr oc (by rw [hP])
      have hbuf2 : cr2.buffer = some b := by rw [hP] at hbuf; exact hbuf
      obtain ⟨g1, g2, g3⟩ := hInv2
      have hblen := g3 b hbuf2
      simp only [hbuf2, Option.getD_some]
      have hcople : (((b.drop cr2.positionInChunk.toNat).take pLen).length : Int)
          ≤ cr2.length - cr2.positionInChunk := by
        simp only [List.length_take, List.length_drop]
        omega
      have hInv3 : ReaderInv
          { offsetInFile := cr2.offsetInFile, length := cr2.length,
            positionInChunk := cr2.positionInChunk
              + (((b.drop cr2.positionInChunk.toNat).take pLen).length : Int),
            buffer := some b,
            prefetchedByteTracker := cr2.prefetchedByteTracker } := by
        refine ⟨?_, ?_, ?_⟩
        · show (0 : Int) ≤ cr2.positionInChunk
            + (((b.drop cr2.positionInChunk.toNat).take pLen).length : Int)
          omega
        · show cr2.positionInChunk
            + (((b.drop cr2.positionInChunk.toNat).take pLen).length : Int)
            ≤ cr2.length
          omega
        · intro c hc
          have hcb : b = c := by injection hc
          show (c.length : Int) = cr2.length
          rw [← hcb]
          exact hblen
      by_cases hEOF : cr2.positionInChunk
          + (((b.drop cr2.positionInChunk.toNat).take pLen).length : Int)
          ≥ cr2.length
      · rw [if_pos hEOF]
        exact readerInv_discard _ hInv3
      · rw [if_neg hEOF]
        exact hInv3

/-- C9: the invariant `0 ≤ positionInChunk ≤ length` holds for every
freshly constructed reader and is preserved by `Prefetch`, `Seek`,
`Read`, and `Close`, whatever their arguments and results (the proof
carries the auxiliary structural fact that a materialized buffer has
exactly `length` bytes, which the constructor establishes and every
operation preserves). -/
theorem C9_position_invariant :
    (∀ cr, ReaderInv cr →
      0 ≤ cr.positionInChunk ∧ cr.positionInChunk ≤ cr.length) ∧
    (∀ off len tr cr, NewSimpleFileChunkReader off len tr = some cr →
      ReaderInv cr) ∧
    (∀ cr oc, ReaderInv cr → ReaderInv (Prefetch cr oc).2) ∧
    (∀ cr offset whence, ReaderInv cr → ReaderInv (Seek cr offset whence).2) ∧
    (∀ cr pLen oc, ReaderInv cr → ReaderInv (Read cr pLen oc).2) ∧
    (∀ cr, ReaderInv cr → ReaderInv (Close cr).2) :=
  ⟨fun _ h => ⟨h.1, h.2.1⟩, readerInv_new, readerInv_prefetch, readerInv_seek,
   readerInv_read, readerInv_close⟩

/-- Witness for C9: the invariant holds for the freshly constructed
length-3 reader and survives a concrete `Seek`. -/
theorem C9_position_invariant_witness :
    ReaderInv (Seek sampleReader 2 0).2 :=
  C9_position_invariant.2.2.2.1 sampleReader 2 0
    (C9_position_invariant.2.1 10 3 100 sampleReader rfl)

end AzCopy

namespace AzCopy

/-- C10: after a failed `Prefetch` (positioned-read failure or short
read) the reader still holds the freshly allocated `length`-byte buffer;
a subsequent `Prefetch` — whatever its read would return — succeeds
immediately without touching the state (so no read, no tracker change),
and the first failed call itself never touched the tracker; a subsequent
`Close` nevertheless decrements the tracker by `length`, so the sequence
failed-Prefetch-then-Close nets `-length` on the tracker. -/
theorem C10_failed_prefetch_keeps_buffer (cr : ChunkReaderState)
    (oc : ReadAtOutcome) (e : String) (hbuf : cr.buffer = none)
    (herr : (Prefetch cr oc).1 = Except.error e) :
    (∃ b, (Prefetch cr oc).2.buffer = some b ∧ b.length = cr.length.toNat) ∧
    (Prefetch cr oc).2.prefetchedByteTracker = cr.prefetchedByteTracker ∧
    (∀ oc2, Prefetch (Prefetch cr oc).2 oc2 = (Except.ok (), (Prefetch cr oc).2)) ∧
    (Close (Prefetch cr oc).2).2.prefetchedByteTracker
      = cr.prefetchedByteTracker - cr.length ∧
    (Close (Prefetch cr oc).2).2.buffer = none := by
  have hstate : ∃ d, (Prefetch cr oc).2 =
      { cr with buffer := some (fillBuffer cr.length.toNat d) } := by
    cases oc with
    | failure pd msg => exact ⟨pd, by simp only [Prefetch, hbuf]⟩
    | success data =>
      refine ⟨data, ?_⟩
      simp only [Prefetch, hbuf]
      by_cases hsh : ((min data.length cr.length.toNat : Nat) : Int) ≠ cr.length
      · rw [if_pos hsh]
      · exfalso
        have hPok : (Prefetch cr (ReadAtOutcome.success data)).1
            = Except.ok () := by
          simp only [Prefetch, hbuf]
          rw [if_neg hsh]
        rw [hPok] at herr
        exact Except.noConfusion herr
  obtain ⟨d, hd⟩ := hstate
  have hsome : (Prefetch cr oc).2.buffer = some (fillBuffer cr.length.toNat d) := by
    rw [hd]
  refine ⟨⟨fillBuffer cr.length.toNat d, hsome, fillBuffer_length _ _⟩,
    by rw [hd], ?_, ?_, ?_⟩
  · intro oc2
    rw [hd]
    rfl
  · show (discardBuffer (Prefetch cr oc).2).prefetchedByteTracker
      = cr.prefetchedByteTracker - cr.length
    rw [discardBuffer_tracker_of_some _ _ hsome, hd]
  · exact discardBuffer_buffer_none _
end AzCopy

namespace AzCopy

/-- Witness for C10 at the length-2 reader whose positioned read returns
a single byte: the failed `Prefetch` keeps the 2-byte buffer, a second
`Prefetch` is a successful no-op, and `Close` still subtracts 2 from the
tracker. -/
theorem C10_failed_prefetch_keeps_buffer_witness :
    shortReadReader.buffer = none ∧
    (Prefetch shortReadReader (ReadAtOutcome.success [7])).1
      = Except.error "bytes read not equal to expected length. Chunk reader must be constructed so that it won't read past end of file" ∧
    ((∃ b, (Prefetch shortReadReader (ReadAtOutcome.success [7])).2.buffer = some b ∧
        b.length = shortReadReader.length.toNat) ∧
     (Prefetch shortReadReader (ReadAtOutcome.success [7])).2.prefetchedByteTracker
       = shortReadReader.prefetchedByteTracker ∧
     (∀ oc2, Prefetch (Prefetch shortReadReader (ReadAtOutcome.success [7])).2 oc2
       = (Except.ok (), (Prefetch shortReadReader (ReadAtOutcome.success [7])).2)) ∧
     (Close (Prefetch shortReadReader (ReadAtOutcome.success [7])).2).2.prefetchedByteTracker
       = shortReadReader.prefetchedByteTracker - shortReadReader.length ∧
     (Close (Prefetch shortReadReader (ReadAtOutcome.success [7])).2).2.buffer = none) :=
  ⟨rfl, rfl,
   C10_failed_prefetch_keeps_buffer shortReadReader (ReadAtOutcome.success [7])
     "bytes read not equal to expected length. Chunk reader must be constructed so that it won't read past end of file"
     rfl rfl⟩

end AzCopy
